import Mathlib

/-!
Shallow embedding of the SYS_AO_Bybit trading botsources
(`src/trade_engine.py`, `src/bybit_v5.py`, `src/state.py`, `src/config.py`)
over exact rational arithmetic.  Python floats are modelled as rationals;
`round(x, 10)` and `float(f"\x7bx:.10f\x7d")` are modelled as exact
round-half-even at 10 decimal digits.
-/

/-- Python `x or y` on optional rationals: `None` and `0` are falsy. -/
def pyOrQ (a b : Option ℚ) : Option ℚ :=
  match a with
  | some v => if v = 0 then b else some v
  | none => b

/-- Python `x or y` on optional strings: `None` and `""` are falsy. -/
def pyOrS (a b : Option String) : Option String :=
  match a with
  | some s => if s = "" then b else some s
  | none => b

/-- Python `x or y` on rationals: `0` is falsy. -/
def pyOr2 (a b : ℚ) : ℚ := if a = 0 then b else a

/-- Python truthiness of an optional rational. -/
def truthyQ : Option ℚ → Bool
  | some v => decide (v ≠ 0)
  | none => false

/-- Round-half-even to an integer, modelling Python `round`. -/
def rhe (x : ℚ) : ℤ :=
  let f := ⌊x⌋
  let r := x - f
  if r < 1/2 then f
  else if 1/2 < r then f + 1
  else if f % 2 = 0 then f else f + 1

/-- Exact rounding at 10 decimal digits, modelling `round(x, 10)` and
`float(f"\x7bx:.10f\x7d")`. -/
def fmt10 (x : ℚ) : ℚ := (rhe (x * 10 ^ 10) : ℚ) / 10 ^ 10

/-- `TradeEngine._floor_to_step` (trade_engine.py lines 28-32). -/
def floor_to_step (x step : ℚ) : ℚ :=
  if step ≤ 0 then x else (⌊x / step⌋ : ℚ) * step

/-- `TradeEngine._round_price` (trade_engine.py lines 43-47). -/
def round_price (price tick_size : ℚ) : ℚ :=
  if tick_size ≤ 0 then price else fmt10 ((rhe (price / tick_size) : ℚ) * tick_size)

/-- `TradeEngine._round_qty` (trade_engine.py lines 49-54). -/
def round_qty (qty qty_step min_qty : ℚ) : ℚ :=
  let q := floor_to_step qty qty_step
  let q2 := if q < min_qty then min_qty else q
  fmt10 q2

/-! ## state.py -/

/-- `STATE_FILE` (state.py line 5). -/
def state_file_name : String := "state.json"

/-- The characters of a name with its final extension removed, following the
semantics of Python `Path.with_suffix`: the extension is the part from the last
dot, provided that dot is not the first character. -/
def py_stem (cs : List Char) : List Char :=
  match (cs.reverse).dropWhile (fun c => c ≠ '.') with
  | [] => cs
  | _ :: stemRev => if stemRev = [] then cs else stemRev.reverse

/-- Python `Path(name).with_suffix(suffix)`. -/
def with_suffix (name suffix : String) : String :=
  String.mk (py_stem name.data) ++ suffix

/-- Top-level keys of the fallback dictionary returned by `load_state`
(state.py lines 16-21). -/
def default_state_keys : List String :=
  ["last_discord_id", "open_trades", "daily_counts", "seen_hashes"]

/-- A filesystem action performed by the state store. -/
inductive FileOp
  | write (path : String)
  | rename (src dst : String)
deriving DecidableEq

/-- `save_state` (state.py lines 23-26): write the snapshot to
`STATE_FILE.with_suffix(".tmp")`, then atomically replace `STATE_FILE`. -/
def save_state_ops : List FileOp :=
  [FileOp.write (with_suffix state_file_name ".tmp"),
   FileOp.rename (with_suffix state_file_name ".tmp") state_file_name]

/-! ## bybit_v5.py: request signing -/

/-- `BybitV5._sign` (bybit_v5.py lines 19-21) applies HMAC-SHA256 to this
message; the property of interest is the message that gets signed. -/
def sign_message (ts api_key recv_window payload : String) : String :=
  ts ++ api_key ++ recv_window ++ payload

/-- The `payload` string chosen by `BybitV5._request` (bybit_v5.py lines
39-48): the compact JSON body when a body is present, the empty string
otherwise — query parameters never contribute. -/
def request_payload (body : Option String) : String :=
  match body with
  | some b => b
  | none => ""

/-- Modelled from the spec: the canonicalized query string
(`"k1=v1&k2=v2"`) that the spec says is the GET signature payload.  It is
absent from the source: `_request` signs the empty string for every GET. -/
def canonical_query : List (String × String) → String
  | [] => ""
  | [(k, v)] => k ++ "=" ++ v
  | (k, v) :: ps => k ++ "=" ++ v ++ "&" ++ canonical_query ps

/-! ## bybit_v5.py: retrying request loop -/

/-- What one HTTP attempt inside `BybitV5._request` observes: a transport
error (`requests.RequestException` while sending), or a response with an HTTP
status and, when the body is parsed, an optional `retCode`. -/
inductive Outcome
  | netErr
  | resp (status : Nat) (retCode : Option ℤ)
deriving DecidableEq

/-- How `BybitV5._request` terminates. -/
inductive ReqResult
  | ok (attempt : Nat)
  | appError (retCode : ℤ)
  | transportErr
  | httpExhausted
deriving DecidableEq

/-- Trace of a `BybitV5._request` run: final result, the sleeps performed
between attempts, and the number of attempts consumed. -/
structure ReqTrace where
  result : ReqResult
  sleeps : List ℚ
  used : Nat
deriving DecidableEq

/-- The retry loop of `BybitV5._request` (bybit_v5.py lines 50-76), driven by
the sequence of attempt outcomes.  `fuel` is the number of loop iterations
remaining and `a` the 0-based attempt index (`a + fuel = 5` at every call from
`http_request`).  Statuses 429/502/503/504 sleep `min(8, 0.75·(a+1))` and
continue; any other status ≥ 400 makes `raise_for_status` throw a
`RequestException`, which the `except` branch retries with sleep
`min(6, 0.75·(a+1))` unless `a = 4`; a parsed `retCode` other than `0`/`None`
raises immediately; exhausting the loop raises `RuntimeError`. -/
def request_attempts (outs : Nat → Outcome) : Nat → Nat → ReqTrace
  | 0, _ => ⟨ReqResult.httpExhausted, [], 0⟩
  | fuel + 1, a =>
    match outs a with
    | Outcome.netErr =>
      if a = 4 then ⟨ReqResult.transportErr, [], 1⟩
      else
        let w := min 6 ((3/4 : ℚ) * (a + 1))
        let t := request_attempts outs fuel (a + 1)
        ⟨t.result, w :: t.sleeps, t.used + 1⟩
    | Outcome.resp s rc =>
      if s = 429 ∨ s = 502 ∨ s = 503 ∨ s = 504 then
        let w := min 8 ((3/4 : ℚ) * (a + 1))
        let t := request_attempts outs fuel (a + 1)
        ⟨t.result, w :: t.sleeps, t.used + 1⟩
      else if 400 ≤ s then
        if a = 4 then ⟨ReqResult.transportErr, [], 1⟩
        else
          let w := min 6 ((3/4 : ℚ) * (a + 1))
          let t := request_attempts outs fuel (a + 1)
          ⟨t.result, w :: t.sleeps, t.used + 1⟩
      else
        match rc with
        | none => ⟨ReqResult.ok a, [], 1⟩
        | some r => if r = 0 then ⟨ReqResult.ok a, [], 1⟩ else ⟨ReqResult.appError r, [], 1⟩

/-- `BybitV5._request`: `for attempt in range(5)` starting at attempt 0. -/
def http_request (outs : Nat → Outcome) : ReqTrace :=
  request_attempts outs 5 0

/-- Whether an attempt outcome causes `_request` to try again (attempt budget
permitting): transient statuses via the status branch, every other HTTP error
status via `raise_for_status` + the `RequestException` branch, and network
errors. -/
def retried_outcome : Outcome → Bool
  | Outcome.netErr => true
  | Outcome.resp s _ =>
    decide (s = 429 ∨ s = 502 ∨ s = 503 ∨ s = 504) || decide (400 ≤ s)

/-! ## trade_engine.py: data model -/

/-- Bybit order side (`"Buy"` / `"Sell"` strings in the source). -/
inductive Side
  | Buy
  | Sell
deriving DecidableEq

/-- `_opposite_side` (trade_engine.py lines 15-16). -/
def opposite_side : Side → Side
  | Side.Buy => Side.Sell
  | Side.Sell => Side.Buy

/-- Trade status strings `"pending" | "open" | "expired" | "closed"`
(`opened` stands for the source's `"open"`, a Lean keyword). -/
inductive Status
  | pending
  | opened
  | expired
  | closed
deriving DecidableEq

/-- The trade record dictionary.  Fields the engine reads with `.get` are
`Option`s (absent keys read as `None`); fields it indexes directly are plain. -/
structure Trade where
  id : String
  symbol : String
  order_side : Side
  trigger : Option ℚ
  entry_price : Option ℚ
  base_qty : ℚ
  sl_price : Option ℚ
  tp_prices : List ℚ
  tp_splits : List ℚ
  dca_prices : List ℚ
  entry_order_id : Option String
  status : Status
  placed_ts : Option ℚ
  filled_ts : Option ℚ
  closed_ts : Option ℚ
  sl_moved_to_be : Bool
  trailing_started : Bool
  post_orders_placed : Bool
deriving DecidableEq

/-- Per-symbol quantization rules returned by `_get_instrument_rules`
(trade_engine.py lines 34-41). -/
structure Rules where
  qty_step : ℚ
  min_qty : ℚ
  tick_size : ℚ
deriving DecidableEq

/-- The configuration values (config.py) the engine reads.  `initial_sl_pct`
is defined in config.py line 51 (documented there as the SL distance from
entry in percent) but is never imported by trade_engine.py. -/
structure Config where
  leverage : ℚ
  risk_pct : ℚ
  entry_expiration_min : ℚ
  entry_too_far_pct : ℚ
  entry_trigger_buffer_pct : ℚ
  entry_limit_price_offset_pct : ℚ
  entry_expiration_price_pct : ℚ
  initial_sl_pct : ℚ
  tp_splits : List ℚ
  dca_qty_mults : List ℚ
  move_sl_to_be_on_tp1 : Bool
  trail_after_tp_index : Nat
  trail_distance_pct : ℚ
  trail_activate_on_tp : Bool
  dry_run : Bool

/-- The deterministic view of the exchange the engine consults during one
handler run: last traded price, wallet equity, instrument rules, and the
current position size per symbol (`position_size_avg`, first component). -/
structure Env where
  last_price : String → ℚ
  equity : ℚ
  rules : String → Rules
  position_size : String → ℚ

/-! ## trade_engine.py: entry gatekeepers and sizing -/

/-- `_too_far` (trade_engine.py lines 67-71). -/
def too_far (far_pct : ℚ) (side : Side) (last trigger : ℚ) : Bool :=
  if side = Side.Sell then decide (last ≤ trigger * (1 - far_pct / 100))
  else decide (last ≥ trigger * (1 + far_pct / 100))

/-- `_beyond_expiry_price` (trade_engine.py lines 73-79). -/
def beyond_expiry_price (exp_pct : ℚ) (side : Side) (last trigger : ℚ) : Bool :=
  if exp_pct ≤ 0 then false
  else if side = Side.Sell then decide (last ≤ trigger * (1 - exp_pct / 100))
  else decide (last ≥ trigger * (1 + exp_pct / 100))

/-- `_trigger_direction` (trade_engine.py lines 81-87). -/
def trigger_direction (last trigger : ℚ) : Nat :=
  if last < trigger then 1
  else if last > trigger then 2
  else 1

/-- `calc_base_qty` (trade_engine.py lines 56-64). -/
def calc_base_qty (cfg : Config) (env : Env) (symbol : String) (entry_price : ℚ) : ℚ :=
  let equity := env.equity
  let margin := equity * (cfg.risk_pct / 100)
  let notional := margin * cfg.leverage
  let qty := notional / entry_price
  let rules := env.rules symbol
  round_qty qty rules.qty_step rules.min_qty

/-! ## trade_engine.py: conditional entry placement -/

/-- The signal dictionary fields `place_conditional_entry` reads. -/
structure Signal where
  symbol : String
  side : String
  trigger : ℚ

/-- The fields of the conditional entry order body built by
`place_conditional_entry` (trade_engine.py lines 147-161) that vary with the
inputs (the remaining fields are constants). -/
structure EntryOrder where
  symbol : String
  side : Side
  qty : ℚ
  price : ℚ
  triggerDirection : Nat
  triggerPrice : ℚ
  reduceOnly : Bool
  orderLinkId : String
deriving DecidableEq

/-- `place_conditional_entry` (trade_engine.py lines 106-169): `none` models
the `return None` taken when a gatekeeper rejects the signal, before any
order is submitted. -/
def place_conditional_entry (cfg : Config) (env : Env) (sig : Signal)
    (trade_id : String) : Option EntryOrder :=
  let side := if sig.side = "sell" then Side.Sell else Side.Buy
  let trigger := sig.trigger
  let last := env.last_price sig.symbol
  if too_far cfg.entry_too_far_pct side last trigger then none
  else if beyond_expiry_price cfg.entry_expiration_price_pct side last trigger then none
  else
    let rules := env.rules sig.symbol
    let tick := rules.tick_size
    let trigger_adj0 :=
      if side = Side.Buy then trigger * (1 - cfg.entry_trigger_buffer_pct / 100)
      else trigger * (1 + cfg.entry_trigger_buffer_pct / 100)
    let trigger_adj := round_price trigger_adj0 tick
    let limit0 :=
      if cfg.entry_limit_price_offset_pct ≠ 0 then
        let off := |cfg.entry_limit_price_offset_pct| / 100
        if side = Side.Sell then trigger * (1 + off) else trigger * (1 - off)
      else trigger
    let limit_price := round_price limit0 tick
    let qty := calc_base_qty cfg env sig.symbol trigger
    let td := trigger_direction last trigger_adj
    some ⟨sig.symbol, side, qty, limit_price, td, trigger_adj, false, trade_id⟩

/-! ## trade_engine.py: post-entry lay-down -/

/-- A reduce-only take-profit limit order from the TP ladder
(trade_engine.py lines 228-239). -/
structure TPOrder where
  symbol : String
  side : Side
  qty : ℚ
  price : ℚ
  reduceOnly : Bool
  orderLinkId : String
deriving DecidableEq

/-- A conditional DCA add order (trade_engine.py lines 261-275). -/
structure DCAOrder where
  symbol : String
  side : Side
  qty : ℚ
  price : ℚ
  triggerDirection : Nat
  orderLinkId : String
deriving DecidableEq

/-- What one run of `place_post_entry_orders` produces: the stop-loss price
sent via `set_trading_stop`, the TP ladder, the DCA conditionals, the updated
trade record, and whether the run returned early because the position size
was not yet visible (trade_engine.py lines 212-215). -/
structure PostEntryResult where
  slPrice : ℚ
  tpOrders : List TPOrder
  dcaOrders : List DCAOrder
  trade : Trade
  retryLater : Bool
deriving DecidableEq

/-- `place_post_entry_orders` (trade_engine.py lines 178-281).  `none` models
the `KeyError` on `trade["entry_price"]` for an unfilled record.  The
stop-loss default when the signal carries no `sl_price` is the hard-coded
`entry * (1 ± 0.19)` of line 195. -/
def place_post_entry_orders (cfg : Config) (env : Env) (tr : Trade) :
    Option PostEntryResult :=
  match tr.entry_price with
  | none => none
  | some entry =>
    let rules := env.rules tr.symbol
    let sl0 : ℚ :=
      match tr.sl_price with
      | some v => v
      | none =>
        if tr.order_side = Side.Sell then entry * (1 + 19/100)
        else entry * (1 - 19/100)
    let slp := round_price sl0 rules.tick_size
    let size := env.position_size tr.symbol
    if size ≤ 0 then some ⟨slp, [], [], tr, true⟩
    else
      let tpPrices := tr.tp_prices
      let splits := if tr.tp_splits = [] then cfg.tp_splits else tr.tp_splits
      let tp_to_place := min tpPrices.length splits.length
      let tpos := (List.range tp_to_place).filterMap fun idx =>
        let pct := splits.getD idx 0
        if pct ≤ 0 then none
        else some
          { symbol := tr.symbol
            side := opposite_side tr.order_side
            qty := round_qty (size * (pct / 100)) rules.qty_step rules.min_qty
            price := round_price (tpPrices.getD idx 0) rules.tick_size
            reduceOnly := true
            orderLinkId := tr.id ++ ":TP" ++ toString (idx + 1) }
      let dca_to_place := min tr.dca_prices.length cfg.dca_qty_mults.length
      let last := env.last_price tr.symbol
      let dcas := (List.range dca_to_place).map fun j0 =>
        let price := round_price (tr.dca_prices.getD j0 0) rules.tick_size
        let mult := cfg.dca_qty_mults.getD j0 0
        { symbol := tr.symbol
          side := tr.order_side
          qty := round_qty (tr.base_qty * mult) rules.qty_step rules.min_qty
          price := price
          triggerDirection := trigger_direction last price
          orderLinkId := tr.id ++ ":DCA" ++ toString (j0 + 1) : DCAOrder }
      some ⟨slp, tpos, dcas, { tr with post_orders_placed := true }, false⟩

/-- Modelled from the spec: the default stop-loss the spec prescribes when the
signal omits one — `INITIAL_SL_PCT` percent from `entry_price` in the adverse
direction.  The engine source instead hard-codes 19% and never reads
`INITIAL_SL_PCT`. -/
def spec_default_sl (sl_pct : ℚ) (side : Side) (entry : ℚ) : ℚ :=
  if side = Side.Sell then entry * (1 + sl_pct / 100)
  else entry * (1 - sl_pct / 100)

/-! ## trade_engine.py: execution-event reaction (`on_execution`) -/

/-- Substring test: Python `pat in s`. -/
def has_sub (pat : List Char) : List Char → Bool
  | [] => pat.isEmpty
  | c :: rest => (pat.isPrefixOf (c :: rest)) || has_sub pat rest

/-- Python `s.split(sep, 1)`: the part before the first separator and the
part after it; `none` when the separator does not occur. -/
def split_first (sep : Char) : List Char → Option (List Char × List Char)
  | [] => none
  | c :: rest =>
    if c = sep then some ([], rest)
    else (split_first sep rest).map fun p => (c :: p.1, p.2)

/-- The regex search `TP(\d+)` of trade_engine.py line 313: the first
occurrence of `TP` followed by at least one digit yields the number read from
the maximal digit run. -/
def find_tp_num : List Char → Option Nat
  | [] => none
  | c :: rest =>
    if c = 'T' then
      match rest with
      | 'P' :: rest2 =>
        let ds := rest2.takeWhile (fun d => d.isDigit)
        if ds.isEmpty then find_tp_num rest
        else some (ds.foldl (fun a d => a * 10 + (d.toNat - 48)) 0)
      | _ => find_tp_num rest
    else find_tp_num rest

/-- An exchange interaction issued from inside `on_execution`. -/
inductive ExCall
  | instruments_info (symbol : String)
  | last_price (symbol : String)
  | set_trading_stop (symbol : String) (stopLoss : Option ℚ)
      (activePrice : Option ℚ) (trailingStop : Option ℚ)
deriving DecidableEq

/-- `_move_sl` (trade_engine.py lines 332-345): fetch the instrument rules,
tick-round the stop, and (unless dry-run) push the position-level stop-loss. -/
def move_sl (cfg : Config) (env : Env) (symbol : String) (slp : ℚ) : List ExCall :=
  let rules := env.rules symbol
  let p := round_price slp rules.tick_size
  ExCall.instruments_info symbol ::
    (if cfg.dry_run then [] else [ExCall.set_trading_stop symbol (some p) none none])

/-- `_start_trailing` (trade_engine.py lines 347-383): anchor at the filled TP
level (or the live price when that TP is absent), convert the trailing percent
to an absolute tick-rounded distance, and push the trailing stop, re-asserting
the break-even stop-loss when it was already promoted. -/
def start_trailing (cfg : Config) (env : Env) (tr : Trade) (tp_num : Nat) : List ExCall :=
  let rules := env.rules tr.symbol
  let tick := rules.tick_size
  let anchorPair :=
    if tr.tp_prices.length < tp_num then
      (env.last_price tr.symbol, [ExCall.last_price tr.symbol])
    else (tr.tp_prices.getD (tp_num - 1) 0, ([] : List ExCall))
  let anchor := round_price anchorPair.1 tick
  let dist := round_price (anchor * (cfg.trail_distance_pct / 100)) tick
  let sl : Option ℚ :=
    if tr.sl_moved_to_be ∧ truthyQ tr.entry_price then
      some (round_price ((tr.entry_price).getD 0) tick)
    else none
  ExCall.instruments_info tr.symbol :: anchorPair.2 ++
    (if cfg.dry_run then [] else [ExCall.set_trading_stop tr.symbol sl (some anchor) (some dist)])

/-- The fields of a private-WS execution event that `on_execution` reads. -/
structure ExecEvent where
  orderLinkId : Option String
  orderLinkID : Option String
  execPrice : Option ℚ
  price : Option ℚ
  lastPrice : Option ℚ

/-- The in-memory `state["open_trades"]` mapping, as an association list. -/
structure GlobalState where
  open_trades : List (String × Trade)
deriving DecidableEq

/-- Dictionary lookup in `open_trades`. -/
def lookup_trade : List (String × Trade) → String → Option Trade
  | [], _ => none
  | (k', t) :: rest, k => if k' = k then some t else lookup_trade rest k

/-- In-place mutation of the trade stored under a key. -/
def update_trade (s : List (String × Trade)) (k : String) (t : Trade) :
    List (String × Trade) :=
  s.map fun p => if p.1 = k then (k, t) else p

/-- The entry-fill branch of `on_execution` (trade_engine.py lines 292-301):
take the first truthy of `execPrice`/`price`/`lastPrice`/`trigger` as the
entry price (keeping the old value when all are falsy, where `float(None)`
raises and is swallowed), promote to `open`, stamp `filled_ts`. -/
def entry_fill_update (now : ℚ) (ev : ExecEvent) (tr : Trade) : Trade :=
  let ep := pyOrQ (pyOrQ (pyOrQ ev.execPrice ev.price) ev.lastPrice) tr.trigger
  { tr with
    entry_price := match ep with | some v => some v | none => tr.entry_price
    status := Status.opened
    filled_ts := some now }

/-- The trailing-activation block of `on_execution` (trade_engine.py lines
326-330), run after the optional break-even move on the same trade record. -/
def trail_step (cfg : Config) (env : Env) (tr : Trade) (tp_num : Nat)
    (cs : List ExCall) : Trade × List ExCall :=
  if cfg.trail_activate_on_tp ∧ tp_num = cfg.trail_after_tp_index ∧
      tr.trailing_started = false then
    ({ tr with trailing_started := true }, cs ++ start_trailing cfg env tr tp_num)
  else (tr, cs)

/-- The TP-fill blocks of `on_execution` (trade_engine.py lines 319-330):
break-even promotion on TP1 guarded by `sl_moved_to_be`, then trailing
activation guarded by `trailing_started`.  `none` models the uncaught
`float(None)` when a TP1 fill arrives for a trade with neither `entry_price`
nor `trigger`. -/
def tp_step (cfg : Config) (env : Env) (tr : Trade) (tp_num : Nat) :
    Option (Trade × List ExCall) :=
  if cfg.move_sl_to_be_on_tp1 ∧ tp_num = 1 ∧ tr.sl_moved_to_be = false then
    match pyOrQ tr.entry_price tr.trigger with
    | none => none
    | some be =>
      let tr1 := { tr with sl_moved_to_be := true }
      some (trail_step cfg env tr1 tp_num (move_sl cfg env tr.symbol be))
  else some (trail_step cfg env tr tp_num [])

/-- The outcome of one `on_execution` run: the updated state, the exchange
calls issued, and whether an exception escaped the handler. -/
structure ExecResult where
  state : GlobalState
  calls : List ExCall
  raised : Bool
deriving DecidableEq

/-- The body of `on_execution` (trade_engine.py lines 284-330) after the
`orderLinkId`/`orderLinkID` fallback chain has produced `link`. -/
def handle_link (cfg : Config) (env : Env) (now : ℚ) (st : GlobalState)
    (ev : ExecEvent) (link : String) : ExecResult :=
  if link = "" then ⟨st, [], false⟩
  else
    match lookup_trade st.open_trades link with
    | some tr =>
      if tr.status = Status.pending then
        ⟨⟨update_trade st.open_trades link (entry_fill_update now ev tr)⟩, [], false⟩
      else ⟨st, [], false⟩
    | none =>
      if has_sub ":TP".data link.data then
        match split_first ':' link.data with
        | none => ⟨st, [], false⟩
        | some (tidc, tagc) =>
          match lookup_trade st.open_trades (String.mk tidc) with
          | none => ⟨st, [], false⟩
          | some tr =>
            match find_tp_num tagc with
            | none => ⟨st, [], false⟩
            | some n =>
              if n = 0 then ⟨st, [], false⟩
              else
                match tp_step cfg env tr n with
                | none => ⟨st, [], true⟩
                | some (tr2, cs) =>
                  ⟨⟨update_trade st.open_trades (String.mk tidc) tr2⟩, cs, false⟩
      else ⟨st, [], false⟩

/-- `on_execution` (trade_engine.py lines 284-330): fall back through the
`orderLinkId` spellings (empty when both are missing or falsy) and dispatch. -/
def on_execution (cfg : Config) (env : Env) (now : ℚ) (st : GlobalState)
    (ev : ExecEvent) : ExecResult :=
  handle_link cfg env now st ev ((pyOrS ev.orderLinkId (pyOrS ev.orderLinkID (some ""))).getD "")

/-! ## trade_engine.py: maintenance sweeps -/

/-- What `bybit.cancel_order` did when `cancel_expired_entries` tried to
cancel an entry: succeeded, reported the order already gone, or raised. -/
inductive CancelResult
  | success
  | alreadyGone
  | failure
deriving DecidableEq

/-- The per-trade body of `cancel_expired_entries` (trade_engine.py lines
386-400).  Returns the updated trade and whether a cancel was attempted.
The `cancel` argument is the exchange's answer to that attempt; the
`try/except` only logs it, so the resulting status does not depend on it. -/
def cancel_expired_step (expiration_min : ℚ) (now : ℚ) (tr : Trade)
    (cancel : CancelResult) : Trade × Bool :=
  if tr.status ≠ Status.pending then (tr, false)
  else
    let placed := (tr.placed_ts).getD 0
    if placed ≠ 0 ∧ now - placed > expiration_min * 60 then
      let attempted :=
        match tr.entry_order_id with
        | some oid => decide (oid ≠ "DRY_RUN")
        | none => false
      let _ := cancel
      ({ tr with status := Status.expired }, attempted)
    else (tr, false)

/-- The close-detection body of `cleanup_closed_trades` (trade_engine.py
lines 404-414): an `open` trade whose position size reads zero becomes
`closed` and is stamped with `closed_ts`. -/
def close_detect_step (now : ℚ) (size : ℚ) (tr : Trade) : Trade :=
  if tr.status = Status.opened ∧ size = 0 then
    { tr with status := Status.closed, closed_ts := some now }
  else tr

/-- The pruning decision of `cleanup_closed_trades` (trade_engine.py lines
416-422): drop a `closed`/`expired` trade when
`(closed_ts or placed_ts or 0) < now - 86400`. -/
def prune_decision (now : ℚ) (tr : Trade) : Bool :=
  decide ((tr.status = Status.closed ∨ tr.status = Status.expired) ∧
    pyOr2 ((tr.closed_ts).getD 0) (pyOr2 ((tr.placed_ts).getD 0) 0) < now - 86400)

/-! ## Concrete fixtures used by witnesses and counterexamples -/

/-- The configuration defaults of config.py, with `initial_sl_pct` set to 10
(a legal `.env` override) to separate it from the hard-coded 19%. -/
def cfg0 : Config :=
  { leverage := 5
    risk_pct := 5
    entry_expiration_min := 180
    entry_too_far_pct := 1/2
    entry_trigger_buffer_pct := 0
    entry_limit_price_offset_pct := 0
    entry_expiration_price_pct := 3/5
    initial_sl_pct := 10
    tp_splits := [30, 30, 30, 10]
    dca_qty_mults := [3/2, 9/4, 3]
    move_sl_to_be_on_tp1 := true
    trail_after_tp_index := 3
    trail_distance_pct := 2
    trail_activate_on_tp := true
    dry_run := false }

/-- An exchange view that answers every symbol with the given data. -/
def mkEnv (last equity : ℚ) (r : Rules) (size : ℚ) : Env :=
  { last_price := fun _ => last
    equity := equity
    rules := fun _ => r
    position_size := fun _ => size }

/-- A pending trade record as created at admission. -/
def tr0 : Trade :=
  { id := "t1"
    symbol := "ETHUSDT"
    order_side := Side.Buy
    trigger := some 3000
    entry_price := none
    base_qty := 1
    sl_price := none
    tp_prices := []
    tp_splits := []
    dca_prices := []
    entry_order_id := some "o1"
    status := Status.pending
    placed_ts := some 100
    filled_ts := none
    closed_ts := none
    sl_moved_to_be := false
    trailing_started := false
    post_orders_placed := false }

/-- An exchange view with a filled position of size 1 and quantization steps
of a thousandth. -/
def envC1 : Env := mkEnv 1 1000 ⟨1/1000, 1/1000, 1/10⟩ 1

/-- A filled trade carrying four TP levels and the default splits. -/
def trC1 : Trade :=
  { tr0 with
      entry_price := some 1
      tp_prices := [1, 2, 3, 4]
      tp_splits := [30, 30, 30, 10]
      status := Status.opened }

/-! ## Helper lemmas -/

lemma rhe_int (n : ℤ) : rhe (n : ℚ) = n := by
  unfold rhe
  simp [Int.floor_intCast]

lemma fmt10_fixed {x : ℚ} (h : ∃ n : ℤ, (n : ℚ) = x * 10 ^ 10) : fmt10 x = x := by
  obtain ⟨n, hn⟩ := h
  unfold fmt10
  rw [← hn, rhe_int, hn]
  rw [mul_div_assoc, div_self (by norm_num), mul_one]

lemma floor_to_step_le {x step : ℚ} (h : 0 < step) : floor_to_step x step ≤ x := by
  unfold floor_to_step
  rw [if_neg (not_le.mpr h)]
  calc (⌊x / step⌋ : ℚ) * step ≤ (x / step) * step := by
        exact mul_le_mul_of_nonneg_right (Int.floor_le _) h.le
    _ = x := div_mul_cancel₀ x h.ne'

lemma floor_to_step_mono {x y step : ℚ} (h : 0 < step) (hxy : x ≤ y) :
    floor_to_step x step ≤ floor_to_step y step := by
  unfold floor_to_step
  rw [if_neg (not_le.mpr h), if_neg (not_le.mpr h)]
  have : ⌊x / step⌋ ≤ ⌊y / step⌋ := Int.floor_le_floor (by gcongr)
  exact mul_le_mul_of_nonneg_right (by exact_mod_cast this) h.le

lemma floor_to_step_fixed10 {x step : ℚ} (h : 0 < step)
    (h10 : ∃ n : ℤ, (n : ℚ) = step * 10 ^ 10) :
    ∃ m : ℤ, (m : ℚ) = floor_to_step x step * 10 ^ 10 := by
  obtain ⟨n, hn⟩ := h10
  refine ⟨⌊x / step⌋ * n, ?_⟩
  unfold floor_to_step
  rw [if_neg (not_le.mpr h)]
  push_cast
  rw [hn]
  ring

lemma round_qty_no_clamp {q step min_qty : ℚ} (h : 0 < step)
    (h10 : ∃ n : ℤ, (n : ℚ) = step * 10 ^ 10)
    (hmin : min_qty ≤ floor_to_step q step) :
    round_qty q step min_qty = floor_to_step q step := by
  simp only [round_qty]
  rw [if_neg (not_lt.mpr hmin)]
  exact fmt10_fixed (floor_to_step_fixed10 h h10)

/-! ## C8 — rounding laws -/

/-- C8 (amended): with positive `qty_step`, `min_qty`, `tick_size`, and
provided `min_qty` is itself an integer multiple of `qty_step` and both steps
are representable at the 10 decimal digits the source formats to,
`round_qty q` is a non-negative multiple of `qty_step` and at least
`min_qty`, and `round_price p` is an integer multiple of `tick_size`. -/
theorem C8_rounding_laws (q p qty_step min_qty tick_size : ℚ)
    (hstep : 0 < qty_step) (hmin : 0 < min_qty) (htick : 0 < tick_size)
    (hstep10 : ∃ n : ℤ, (n : ℚ) = qty_step * 10 ^ 10)
    (htick10 : ∃ n : ℤ, (n : ℚ) = tick_size * 10 ^ 10)
    (hmin_mult : ∃ k : ℤ, (k : ℚ) * qty_step = min_qty) :
    (∃ n : ℤ, 0 ≤ n ∧ round_qty q qty_step min_qty = (n : ℚ) * qty_step) ∧
    min_qty ≤ round_qty q qty_step min_qty ∧
    0 ≤ round_qty q qty_step min_qty ∧
    (∃ m : ℤ, round_price p tick_size = (m : ℚ) * tick_size) := by
  obtain ⟨ns, hns⟩ := hstep10
  obtain ⟨k, hk⟩ := hmin_mult
  have hprice : ∃ m : ℤ, round_price p tick_size = (m : ℚ) * tick_size := by
    obtain ⟨nt, hnt⟩ := htick10
    refine ⟨rhe (p / tick_size), ?_⟩
    unfold round_price
    rw [if_neg (not_le.mpr htick)]
    exact fmt10_fixed ⟨rhe (p / tick_size) * nt, by push_cast; rw [hnt]; ring⟩
  have hfs : floor_to_step q qty_step = (⌊q / qty_step⌋ : ℚ) * qty_step := by
    unfold floor_to_step
    rw [if_neg (not_le.mpr hstep)]
  have hval : round_qty q qty_step min_qty =
      if floor_to_step q qty_step < min_qty then min_qty
      else floor_to_step q qty_step := by
    simp only [round_qty]
    by_cases hc : floor_to_step q qty_step < min_qty
    · rw [if_pos hc]
      exact fmt10_fixed ⟨k * ns, by push_cast; rw [hns, ← hk]; ring⟩
    · rw [if_neg hc]
      exact fmt10_fixed (floor_to_step_fixed10 hstep ⟨ns, hns⟩)
  rw [hval]
  by_cases hc : floor_to_step q qty_step < min_qty
  · rw [if_pos hc]
    have hk0 : (0 : ℚ) < (k : ℚ) := by nlinarith
    refine ⟨⟨k, by exact_mod_cast hk0.le, hk.symm⟩, le_refl _, hmin.le, hprice⟩
  · rw [if_neg hc]
    have hge : min_qty ≤ floor_to_step q qty_step := not_lt.mp hc
    have hpos : (0 : ℚ) < (⌊q / qty_step⌋ : ℚ) := by
      rw [hfs] at hge
      nlinarith
    refine ⟨⟨⌊q / qty_step⌋, by exact_mod_cast hpos.le, hfs⟩, hge, le_trans hmin.le hge, hprice⟩

/-- C8 counterexample: with `qty_step = 2` and `min_qty = 3` (both positive,
as the claim requires, but `min_qty` not a multiple of `qty_step`), the
clamped result `round_qty 0 2 3 = 3` is not a multiple of the step. -/
theorem C8_min_qty_counterexample :
    0 < (2 : ℚ) ∧ 0 < (3 : ℚ) ∧ round_qty 0 2 3 = 3 ∧
    ¬ ∃ n : ℤ, (3 : ℚ) = (n : ℚ) * 2 := by
  refine ⟨by norm_num, by norm_num, ?_, ?_⟩
  · norm_num [round_qty, floor_to_step, fmt10, rhe]
  · rintro ⟨n, hn⟩
    have : (3 : ℤ) = n * 2 := by exact_mod_cast hn
    omega

/-- C8 witness: the amended rounding laws at `q = 5`, `p = 3`,
`qty_step = 1/2`, `min_qty = 1`, `tick_size = 1/10`. -/
theorem C8_rounding_laws_witness :
    0 < (1/2 : ℚ) ∧
    ((∃ n : ℤ, 0 ≤ n ∧ round_qty 5 (1/2) 1 = (n : ℚ) * (1/2)) ∧
      1 ≤ round_qty 5 (1/2) 1 ∧ 0 ≤ round_qty 5 (1/2) 1 ∧
      (∃ m : ℤ, round_price 3 (1/10) = (m : ℚ) * (1/10))) :=
  ⟨by norm_num,
    C8_rounding_laws 5 3 (1/2) 1 (1/10) (by norm_num) (by norm_num) (by norm_num)
      ⟨5000000000, by norm_num⟩ ⟨1000000000, by norm_num⟩ ⟨2, by norm_num⟩⟩

/-! ## C4 — persisted snapshot layout -/

/-- C4 counterexample: the temp file `save_state` writes is `state.tmp`
(`Path("state.json").with_suffix(".tmp")` replaces the extension), not
`state.json.tmp`, and the snapshot's top-level keys are
`last_discord_id`/`open_trades`/`daily_counts`/`seen_hashes`, not the
claimed `last_signal_id`/`seen_fingerprints` set. -/
theorem C4_state_layout_counterexample :
    with_suffix state_file_name ".tmp" = "state.tmp" ∧
    "state.tmp" ≠ "state.json.tmp" ∧
    default_state_keys ≠ ["last_signal_id", "open_trades", "daily_counts", "seen_fingerprints"] := by
  refine ⟨by decide, by decide, by decide⟩

/-- C4 (amended): the snapshot is a single JSON object with top-level keys
`last_discord_id`, `open_trades`, `daily_counts`, `seen_hashes`, and every
write goes through the temp file `state.tmp` followed by an atomic rename
onto `state.json`. -/
theorem C4_state_layout :
    save_state_ops = [FileOp.write "state.tmp", FileOp.rename "state.tmp" "state.json"] ∧
    default_state_keys = ["last_discord_id", "open_trades", "daily_counts", "seen_hashes"] := by
  refine ⟨by decide, rfl⟩

/-! ## C3 — REST signature payload -/

/-- C3 counterexample: for a GET carrying the query parameters of
`/v5/market/tickers`, the message `_sign` hashes uses the empty payload, not
the canonicalized query string. -/
theorem C3_get_payload_counterexample :
    sign_message "1700000000000" "key" "5000" (request_payload none) ≠
      sign_message "1700000000000" "key" "5000"
        (canonical_query [("category", "linear"), ("symbol", "BTCUSDT")]) ∧
    canonical_query [("category", "linear"), ("symbol", "BTCUSDT")] =
      "category=linear&symbol=BTCUSDT" ∧
    request_payload none = "" := by
  refine ⟨by decide, by decide, rfl⟩

/-- C3 (amended): the signature message is
`timestamp ‖ api_key ‖ recv_window ‖ payload`, where the payload is the empty
string for every GET — even one with query parameters — and the literal JSON
body for POST. -/
theorem C3_signature_payload (ts api_key recv_window body : String) :
    sign_message ts api_key recv_window (request_payload none) =
      ts ++ api_key ++ recv_window ∧
    sign_message ts api_key recv_window (request_payload (some body)) =
      ts ++ api_key ++ recv_window ++ body := by
  constructor
  · simp [sign_message, request_payload]
  · rfl

/-! ## C2 — default stop-loss distance -/

/-- C2: with `INITIAL_SL_PCT` configured to 10, a Buy trade filled at 100 and
carrying no `sl_price` gets its stop-loss at 81 — the hard-coded
`entry * (1 - 0.19)` of trade_engine.py line 195 — while the configured
default distance prescribes 90.  The engine never reads `INITIAL_SL_PCT`. -/
theorem C2_default_sl_ignores_config :
    (place_post_entry_orders cfg0 (mkEnv 100 1000 ⟨1/1000, 1/1000, 1/100⟩ 0)
        { tr0 with
            order_side := Side.Buy
            entry_price := some 100
            status := Status.opened }).map PostEntryResult.slPrice = some 81 ∧
    spec_default_sl cfg0.initial_sl_pct Side.Buy 100 = 90 ∧
    (81 : ℚ) ≠ 90 := by
  refine ⟨?_, ?_, by norm_num⟩
  · simp [place_post_entry_orders, tr0, mkEnv, cfg0]
    norm_num [round_price, fmt10, rhe]
  · simp [spec_default_sl, cfg0]
    norm_num

/-! ## C9 — too-far admission gate -/

/-- C9: a Sell signal whose last price is at or below
`trigger · (1 - ENTRY_TOO_FAR_PCT/100)` is rejected by
`place_conditional_entry` (it returns `None` before submitting any order),
and symmetrically a Buy signal with last price at or above
`trigger · (1 + ENTRY_TOO_FAR_PCT/100)` is rejected. -/
theorem C9_too_far_rejects (cfg : Config) (env : Env) (sig : Signal) (trade_id : String) :
    (sig.side = "sell" →
      env.last_price sig.symbol ≤ sig.trigger * (1 - cfg.entry_too_far_pct / 100) →
      place_conditional_entry cfg env sig trade_id = none) ∧
    (sig.side = "buy" →
      env.last_price sig.symbol ≥ sig.trigger * (1 + cfg.entry_too_far_pct / 100) →
      place_conditional_entry cfg env sig trade_id = none) := by
  constructor
  · intro hs hle
    simp [place_conditional_entry, too_far, hs, hle]
  · intro hs hge
    simp [place_conditional_entry, too_far, hs, hge]

/-- C9 witness: the spec's literal scenario — Sell, trigger 3000, last 2970,
`ENTRY_TOO_FAR_PCT = 0.5`; since `2970 ≤ 2985` the entry is rejected. -/
theorem C9_too_far_rejects_witness :
    ({ symbol := "ETHUSDT", side := "sell", trigger := 3000 : Signal }).side = "sell" ∧
    place_conditional_entry cfg0 (mkEnv 2970 1000 ⟨1/1000, 1/1000, 1/100⟩ 0)
      { symbol := "ETHUSDT", side := "sell", trigger := 3000 } "t1" = none :=
  ⟨rfl,
    (C9_too_far_rejects cfg0 (mkEnv 2970 1000 ⟨1/1000, 1/1000, 1/100⟩ 0)
        { symbol := "ETHUSDT", side := "sell", trigger := 3000 } "t1").1
      rfl (by norm_num [mkEnv, cfg0])⟩

/-! ## C6 — expiry cancellation -/

/-- C6 counterexample: a pending trade past its expiration window whose
cancel attempt raises is still marked `expired` — `tr["status"] = "expired"`
sits outside the `try/except` of trade_engine.py lines 394-400 — whereas the
claim says it must stay `pending`. -/
theorem C6_cancel_failure_counterexample :
    (cancel_expired_step 180 20000 tr0 CancelResult.failure).2 = true ∧
    ((cancel_expired_step 180 20000 tr0 CancelResult.failure).1).status = Status.expired ∧
    Status.expired ≠ Status.pending := by
  refine ⟨?_, ?_, by decide⟩ <;>
    · simp [cancel_expired_step, tr0]
      norm_num

/-- C6 (amended): the sweep marks every pending trade past its expiration
window `expired` regardless of the outcome of the cancel attempt — also when
the exchange reports failure. -/
theorem C6_expiry_regardless (expiration_min now : ℚ) (tr : Trade) (cancel : CancelResult)
    (hp : tr.status = Status.pending)
    (hplaced : (tr.placed_ts).getD 0 ≠ 0)
    (hexp : now - (tr.placed_ts).getD 0 > expiration_min * 60) :
    ((cancel_expired_step expiration_min now tr cancel).1).status = Status.expired := by
  simp [cancel_expired_step, hp, hplaced, hexp]

/-- C6 witness: the amended sweep behaviour on the concrete pending trade
`tr0` placed at 100, swept at 20000 with a 180-minute window. -/
theorem C6_expiry_regardless_witness :
    tr0.status = Status.pending ∧
    ((cancel_expired_step 180 20000 tr0 CancelResult.alreadyGone).1).status = Status.expired :=
  ⟨rfl,
    C6_expiry_regardless 180 20000 tr0 CancelResult.alreadyGone rfl
      (by norm_num [tr0]) (by norm_num [tr0])⟩

/-! ## C7 — pruning of terminal trades -/

/-- C7 counterexample: `tr0` (placed at 100) expires at the sweep of t=20000;
no terminal timestamp is stored, so at t=86600 — only 66600 seconds after it
entered `expired` — the pruning predicate already fires via the `placed_ts`
fallback of trade_engine.py line 420. -/
theorem C7_prune_counterexample :
    ((cancel_expired_step 180 20000 tr0 CancelResult.success).1).status = Status.expired ∧
    ((cancel_expired_step 180 20000 tr0 CancelResult.success).1).closed_ts = none ∧
    prune_decision 86600 ((cancel_expired_step 180 20000 tr0 CancelResult.success).1) = true ∧
    (86600 : ℚ) - 20000 < 86400 := by
  refine ⟨?_, ?_, ?_, by norm_num⟩ <;>
    · simp [cancel_expired_step, prune_decision, pyOr2, tr0]
      norm_num

/-- C7 (amended): a trade that close-detection stamped with `closed_ts` is
pruned exactly when more than 24h have passed since that stamp; an `expired`
trade carries no terminal timestamp and is pruned once more than 24h have
passed since `placed_ts`, which can be earlier than 24h after expiry. -/
theorem C7_prune_reference_times (tr tr' : Trade) (now now' t_close p : ℚ) :
    (tr.status = Status.opened → 0 < t_close →
      (prune_decision now (close_detect_step t_close 0 tr) = true ↔ 86400 < now - t_close)) ∧
    (tr'.status = Status.expired → tr'.closed_ts = none → tr'.placed_ts = some p → p ≠ 0 →
      (prune_decision now' tr' = true ↔ 86400 < now' - p)) := by
  constructor
  · intro hst hpos
    simp [close_detect_step, prune_decision, hst, pyOr2, hpos.ne']
    constructor <;> intro <;> linarith
  · intro hst hcl hpl hp0
    simp [prune_decision, hst, hcl, hpl, pyOr2, hp0]
    constructor <;> intro <;> linarith

/-- C7 witness: a trade closed by detection at t=10 is prunable at t=90000. -/
theorem C7_prune_reference_times_witness :
    ({ tr0 with status := Status.opened } : Trade).status = Status.opened ∧
    (prune_decision 90000 (close_detect_step 10 0 { tr0 with status := Status.opened }) = true ↔
      86400 < (90000 : ℚ) - 10) :=
  ⟨rfl,
    (C7_prune_reference_times { tr0 with status := Status.opened } tr0 90000 0 10 1).1
      rfl (by norm_num)⟩

/-! ## C1 — TP ladder quantities -/

/-- C1 counterexample: position size `P = 1/1000` with `qty_step = min_qty =
1/1000` and splits `[30,30,30,10]`: every per-TP quantity floors to 0 and is
clamped up to `min_qty`, so the four reduce-only quantities are each `1/1000`
and sum to `1/250 > P`, refuting `Σ q_i ≤ P`. -/
theorem C1_tp_sum_counterexample :
    (place_post_entry_orders cfg0 (mkEnv 1 1000 ⟨1/1000, 1/1000, 1/10⟩ (1/1000))
        { tr0 with
            entry_price := some 1
            tp_prices := [1, 2, 3, 4]
            tp_splits := [30, 30, 30, 10]
            status := Status.opened }).map
      (fun r => (r.tpOrders.map TPOrder.qty, (r.tpOrders.map TPOrder.qty).sum)) =
      some ([1/1000, 1/1000, 1/1000, 1/1000], 1/250) ∧
    ¬ ((1/250 : ℚ) ≤ 1/1000) := by
  constructor
  · have hr4 : List.range 4 = [0, 1, 2, 3] := rfl
    simp [place_post_entry_orders, tr0, mkEnv, cfg0, hr4]
    norm_num [round_qty, floor_to_step, fmt10, rhe, round_price]
  · norm_num

/-- C1 (amended): with splits `[30,30,30,10]`, four TP prices and filled size
`P > 0`, the four reduce-only TP quantities equal `round_qty(P·split_i/100)`;
and provided the `min_qty` clamp does not engage (i.e. `min_qty` is at most
the floored smallest slice) their sum is at most `P`. -/
theorem C1_tp_quantities (cfg : Config) (env : Env) (tr : Trade)
    (e P p1 p2 p3 p4 : ℚ)
    (hentry : tr.entry_price = some e)
    (hsplits : tr.tp_splits = [30, 30, 30, 10])
    (hprices : tr.tp_prices = [p1, p2, p3, p4])
    (hP : env.position_size tr.symbol = P) (hPpos : 0 < P)
    (hstep : 0 < (env.rules tr.symbol).qty_step)
    (hstep10 : ∃ n : ℤ, (n : ℚ) = (env.rules tr.symbol).qty_step * 10 ^ 10)
    (hnoclamp : (env.rules tr.symbol).min_qty ≤
      floor_to_step (P * (10/100)) (env.rules tr.symbol).qty_step) :
    ∃ res, place_post_entry_orders cfg env tr = some res ∧
      res.tpOrders.map TPOrder.qty =
        [round_qty (P * (30/100)) (env.rules tr.symbol).qty_step (env.rules tr.symbol).min_qty,
         round_qty (P * (30/100)) (env.rules tr.symbol).qty_step (env.rules tr.symbol).min_qty,
         round_qty (P * (30/100)) (env.rules tr.symbol).qty_step (env.rules tr.symbol).min_qty,
         round_qty (P * (10/100)) (env.rules tr.symbol).qty_step (env.rules tr.symbol).min_qty] ∧
      (res.tpOrders.map TPOrder.qty).sum ≤ P := by
  have hr4 : List.range 4 = [0, 1, 2, 3] := rfl
  have hmono : (env.rules tr.symbol).min_qty ≤
      floor_to_step (P * (30/100)) (env.rules tr.symbol).qty_step :=
    le_trans hnoclamp (floor_to_step_mono hstep (by nlinarith))
  have h30 : round_qty (P * (30/100)) (env.rules tr.symbol).qty_step
      (env.rules tr.symbol).min_qty =
      floor_to_step (P * (30/100)) (env.rules tr.symbol).qty_step :=
    round_qty_no_clamp hstep hstep10 hmono
  have h10 : round_qty (P * (10/100)) (env.rules tr.symbol).qty_step
      (env.rules tr.symbol).min_qty =
      floor_to_step (P * (10/100)) (env.rules tr.symbol).qty_step :=
    round_qty_no_clamp hstep hstep10 hnoclamp
  have hle30 : floor_to_step (P * (30/100)) (env.rules tr.symbol).qty_step ≤ P * (30/100) :=
    floor_to_step_le hstep
  have hle10 : floor_to_step (P * (10/100)) (env.rules tr.symbol).qty_step ≤ P * (10/100) :=
    floor_to_step_le hstep
  have key : (place_post_entry_orders cfg env tr).map (fun r => r.tpOrders.map TPOrder.qty) =
      some [round_qty (P * (30/100)) (env.rules tr.symbol).qty_step (env.rules tr.symbol).min_qty,
        round_qty (P * (30/100)) (env.rules tr.symbol).qty_step (env.rules tr.symbol).min_qty,
        round_qty (P * (30/100)) (env.rules tr.symbol).qty_step (env.rules tr.symbol).min_qty,
        round_qty (P * (10/100)) (env.rules tr.symbol).qty_step (env.rules tr.symbol).min_qty] := by
    simp [place_post_entry_orders, hentry, hsplits, hprices, hP, hPpos.not_le, hr4]
  cases hpl : place_post_entry_orders cfg env tr with
  | none => rw [hpl] at key; exact absurd key (by simp)
  | some res =>
    rw [hpl] at key
    simp only [Option.map_some', Option.some_inj] at key
    refine ⟨res, rfl, key, ?_⟩
    rw [key]
    simp only [List.sum_cons, List.sum_nil, add_zero]
    rw [h30, h10]
    nlinarith [hle30, hle10]

/-- C1 witness: the amended ladder law at `P = 1`, steps of a thousandth. -/
theorem C1_tp_quantities_witness :
    0 < (1 : ℚ) ∧
    ∃ res, place_post_entry_orders cfg0 envC1 trC1 = some res ∧
      res.tpOrders.map TPOrder.qty =
        [round_qty (1 * (30/100)) (envC1.rules trC1.symbol).qty_step (envC1.rules trC1.symbol).min_qty,
         round_qty (1 * (30/100)) (envC1.rules trC1.symbol).qty_step (envC1.rules trC1.symbol).min_qty,
         round_qty (1 * (30/100)) (envC1.rules trC1.symbol).qty_step (envC1.rules trC1.symbol).min_qty,
         round_qty (1 * (10/100)) (envC1.rules trC1.symbol).qty_step (envC1.rules trC1.symbol).min_qty] ∧
      (res.tpOrders.map TPOrder.qty).sum ≤ 1 :=
  ⟨by norm_num,
    C1_tp_quantities cfg0 envC1 trC1 1 1 1 2 3 4 rfl rfl rfl rfl (by norm_num)
      (by norm_num [envC1, mkEnv]) ⟨10000000, by norm_num [envC1, mkEnv]⟩
      (by norm_num [envC1, mkEnv, floor_to_step])⟩

/-! ## C5 — retry policy of the Exchange Client -/

lemma min68 {a : ℕ} (ha : a ≤ 4) :
    min (8 : ℚ) ((3/4 : ℚ) * ((a : ℚ) + 1)) = min 6 ((3/4 : ℚ) * ((a : ℚ) + 1)) := by
  have h5 : ((a : ℚ) + 1) ≤ 5 := by exact_mod_cast Nat.succ_le_succ ha
  rw [min_eq_right (by linarith), min_eq_right (by linarith)]

lemma spec_cons (outs : Nat → Outcome) (a : ℕ) (t : ReqTrace) (fuel : ℕ)
    (hused : t.used ≤ fuel)
    (hlen : t.sleeps.length ≤ t.used)
    (hsleep : ∀ i, (h : i < t.sleeps.length) →
      t.sleeps.get ⟨i, h⟩ = min 6 ((3/4 : ℚ) * (((a + 1) + i + 1 : ℕ) : ℚ)))
    (hret : ∀ j, j + 1 < t.used → retried_outcome (outs ((a + 1) + j)) = true)
    (hlast : t.used < fuel → 1 ≤ t.used ∧ retried_outcome (outs ((a + 1) + (t.used - 1))) = false)
    (hre : retried_outcome (outs a) = true)
    (w : ℚ) (hw : w = min 6 ((3/4 : ℚ) * ((a : ℚ) + 1))) :
    (t.used + 1 ≤ fuel + 1) ∧ ((w :: t.sleeps).length ≤ t.used + 1) ∧
    (∀ i, (h : i < (w :: t.sleeps).length) →
      (w :: t.sleeps).get ⟨i, h⟩ = min 6 ((3/4 : ℚ) * ((a + i + 1 : ℕ) : ℚ))) ∧
    (∀ j, j + 1 < t.used + 1 → retried_outcome (outs (a + j)) = true) ∧
    (t.used + 1 < fuel + 1 → 1 ≤ t.used + 1 ∧
      retried_outcome (outs (a + (t.used + 1 - 1))) = false) := by
  refine ⟨by omega, by simpa using hlen, ?_, ?_, ?_⟩
  · intro i h
    cases i with
    | zero =>
      simp [hw]
    | succ i =>
      have h' : i < t.sleeps.length := by simpa using h
      simp only [List.get_cons_succ]
      have heq : a + (i + 1) + 1 = (a + 1) + i + 1 := by omega
      rw [heq]
      exact hsleep i h'
  · intro j hj
    cases j with
    | zero =>
      simpa using hre
    | succ j =>
      have : j + 1 < t.used := by omega
      have := hret j this
      simpa [Nat.add_assoc, Nat.add_comm, Nat.add_left_comm] using this
  · intro h
    have h' : t.used < fuel := by omega
    obtain ⟨h1, h2⟩ := hlast h'
    refine ⟨by omega, ?_⟩
    have : (a + 1) + (t.used - 1) = a + (t.used + 1 - 1) := by omega
    rwa [this] at h2

lemma request_attempts_spec (outs : Nat → Outcome) :
    ∀ fuel a, a + fuel = 5 →
      (request_attempts outs fuel a).used ≤ fuel ∧
      (request_attempts outs fuel a).sleeps.length ≤ (request_attempts outs fuel a).used ∧
      (∀ i, (h : i < (request_attempts outs fuel a).sleeps.length) →
        (request_attempts outs fuel a).sleeps.get ⟨i, h⟩ =
          min 6 ((3/4 : ℚ) * ((a + i + 1 : ℕ) : ℚ))) ∧
      (∀ j, j + 1 < (request_attempts outs fuel a).used →
        retried_outcome (outs (a + j)) = true) ∧
      ((request_attempts outs fuel a).used < fuel →
        1 ≤ (request_attempts outs fuel a).used ∧
        retried_outcome (outs (a + ((request_attempts outs fuel a).used - 1))) = false) := by
  intro fuel
  induction fuel with
  | zero =>
    intro a ha
    simp [request_attempts]
  | succ fuel ih =>
    intro a ha
    have ha4 : a ≤ 4 := by omega
    have hinv : (a + 1) + fuel = 5 := by omega
    cases ho : outs a with
    | netErr =>
      by_cases he : a = 4
      · subst he
        have hf : fuel = 0 := by omega
        subst hf
        simp [request_attempts, ho]
      · obtain ⟨h1, h2, h3, h4, h5⟩ := ih (a + 1) hinv
        have := spec_cons outs a (request_attempts outs fuel (a + 1)) fuel h1 h2 h3 h4 h5
          (by simp [retried_outcome, ho]) _ rfl
        simpa [request_attempts, ho, he] using this
    | resp s rc =>
      by_cases hs : s = 429 ∨ s = 502 ∨ s = 503 ∨ s = 504
      · obtain ⟨h1, h2, h3, h4, h5⟩ := ih (a + 1) hinv
        have hre : retried_outcome (outs a) = true := by simp [retried_outcome, ho, hs]
        have := spec_cons outs a (request_attempts outs fuel (a + 1)) fuel h1 h2 h3 h4 h5 hre
          _ (min68 ha4)
        simpa [request_attempts, ho, hs] using this
      · by_cases h4s : 400 ≤ s
        · by_cases he : a = 4
          · subst he
            have hf : fuel = 0 := by omega
            subst hf
            simp [request_attempts, ho, hs, h4s]
          · obtain ⟨h1, h2, h3, h4, h5⟩ := ih (a + 1) hinv
            have hre : retried_outcome (outs a) = true := by simp [retried_outcome, ho, h4s]
            have := spec_cons outs a (request_attempts outs fuel (a + 1)) fuel h1 h2 h3 h4 h5 hre
              _ rfl
            simpa [request_attempts, ho, hs, h4s, he] using this
        · cases rc with
          | none =>
            simp [request_attempts, ho, hs, h4s]
            intro _
            simp [retried_outcome, hs, h4s]
          | some r =>
            by_cases hr : r = 0
            · simp [request_attempts, ho, hs, h4s, hr]
              intro _
              simp [retried_outcome, hs, h4s]
            · simp [request_attempts, ho, hs, h4s, hr]
              intro _
              simp [retried_outcome, hs, h4s]

/-- C5 (amended): `_request` makes at most 5 attempts; every sleep before a
retry equals `min(6s, 0.75·k)` for the 1-based attempt number `k` (the
status branch's literal cap is 8s, but neither cap binds within 5 attempts,
so the two retry branches sleep identically); every attempt that is followed
by another one had a retried-class outcome — a transient status
429/502/503/504, any other HTTP status ≥ 400 (retried via
`raise_for_status` + the `except RequestException` branch), or a network
error — and a run that stops early stopped on a non-retried outcome. -/
theorem C5_retry_policy (outs : Nat → Outcome) :
    (http_request outs).used ≤ 5 ∧
    (http_request outs).sleeps.length ≤ (http_request outs).used ∧
    (∀ i, (h : i < (http_request outs).sleeps.length) →
      (http_request outs).sleeps.get ⟨i, h⟩ = min 6 ((3/4 : ℚ) * ((i + 1 : ℕ) : ℚ)) ∧
      (http_request outs).sleeps.get ⟨i, h⟩ = min 8 ((3/4 : ℚ) * ((i + 1 : ℕ) : ℚ))) ∧
    (∀ j, j + 1 < (http_request outs).used → retried_outcome (outs j) = true) ∧
    ((http_request outs).used < 5 →
      retried_outcome (outs ((http_request outs).used - 1)) = false) := by
  simp only [http_request]
  obtain ⟨h1, h2, h3, h4, h5⟩ := request_attempts_spec outs 5 0 rfl
  refine ⟨h1, h2, ?_, ?_, ?_⟩
  · intro i h
    have hv := h3 i h
    have hlen5 : (request_attempts outs 5 0).sleeps.length ≤ 5 := le_trans h2 h1
    have hi : i ≤ 4 := by omega
    have hzero : (0 + i + 1 : ℕ) = i + 1 := by omega
    rw [hzero] at hv
    have h8 : min (6 : ℚ) ((3/4 : ℚ) * ((i + 1 : ℕ) : ℚ)) =
        min 8 ((3/4 : ℚ) * ((i + 1 : ℕ) : ℚ)) := by
      push_cast
      exact (min68 hi).symm
    exact ⟨hv, by rw [hv]; exact h8⟩
  · intro j hj
    simpa using h4 j hj
  · intro h'
    obtain ⟨_, hx⟩ := h5 h'
    simpa using hx

/-- C5 counterexample: a 500 response — outside the claimed retry set
{429, 502, 503, 504} and not a network error — is nonetheless retried: the
run consumes a second attempt (`used = 2`) after sleeping 0.75s, because
`raise_for_status` turns the 500 into a `RequestException` that the `except`
branch retries. -/
theorem C5_retry_500_counterexample :
    http_request (fun n => if n = 0 then Outcome.resp 500 none else Outcome.resp 200 none) =
      ⟨ReqResult.ok 1, [3/4], 2⟩ ∧
    ¬ (500 = 429 ∨ 500 = 502 ∨ 500 = 503 ∨ 500 = 504) := by
  constructor
  · simp [http_request, request_attempts]
    norm_num
  · decide

/-- C5 witness: the retry-policy characterization at the constant
all-success outcome sequence. -/
theorem C5_retry_policy_witness :
    (http_request (fun _ => Outcome.resp 200 (some 0))).used ≤ 5 ∧
    (http_request (fun _ => Outcome.resp 200 (some 0))).sleeps.length ≤
      (http_request (fun _ => Outcome.resp 200 (some 0))).used ∧
    (∀ i, (h : i < (http_request (fun _ => Outcome.resp 200 (some 0))).sleeps.length) →
      (http_request (fun _ => Outcome.resp 200 (some 0))).sleeps.get ⟨i, h⟩ =
        min 6 ((3/4 : ℚ) * ((i + 1 : ℕ) : ℚ)) ∧
      (http_request (fun _ => Outcome.resp 200 (some 0))).sleeps.get ⟨i, h⟩ =
        min 8 ((3/4 : ℚ) * ((i + 1 : ℕ) : ℚ))) ∧
    (∀ j, j + 1 < (http_request (fun _ => Outcome.resp 200 (some 0))).used →
      retried_outcome ((fun _ => Outcome.resp 200 (some 0)) j) = true) ∧
    ((http_request (fun _ => Outcome.resp 200 (some 0))).used < 5 →
      retried_outcome ((fun _ => Outcome.resp 200 (some 0))
        ((http_request (fun _ => Outcome.resp 200 (some 0))).used - 1)) = false) :=
  C5_retry_policy (fun _ => Outcome.resp 200 (some 0))

/-! ## C10 — idempotence of `on_execution` -/


lemma lookup_trade_cons (p : String × Trade) (rest : List (String × Trade)) (k : String) :
    lookup_trade (p :: rest) k = if p.1 = k then some p.2 else lookup_trade rest k := rfl

lemma update_trade_cons (p : String × Trade) (rest : List (String × Trade)) (k : String)
    (v : Trade) :
    update_trade (p :: rest) k v =
      (if p.1 = k then (k, v) else p) :: update_trade rest k v := rfl

lemma lookup_update_self (s : List (String × Trade)) (k : String) (v : Trade) :
    lookup_trade (update_trade s k v) k = (lookup_trade s k).map (fun _ => v) := by
  induction s with
  | nil => rfl
  | cons p rest ih =>
    rw [update_trade_cons, lookup_trade_cons, lookup_trade_cons]
    by_cases h : p.1 = k
    · rw [if_pos h, if_pos h]
      simp
    · rw [if_neg h, if_neg h, if_neg h, ih]

lemma lookup_update_ne (s : List (String × Trade)) (k k' : String) (v : Trade)
    (h : k' ≠ k) :
    lookup_trade (update_trade s k v) k' = lookup_trade s k' := by
  induction s with
  | nil => rfl
  | cons p rest ih =>
    rw [update_trade_cons, lookup_trade_cons, lookup_trade_cons]
    by_cases h0 : p.1 = k
    · rw [if_pos h0]
      have h1 : ((k, v) : String × Trade).1 = k' ↔ False := by
        simp [Ne.symm h]
      rw [if_neg (by simp [Ne.symm h]), if_neg (by rw [h0]; exact Ne.symm h), ih]
    · rw [if_neg h0, ih]

lemma update_update (s : List (String × Trade)) (k : String) (v v' : Trade) :
    update_trade (update_trade s k v) k v' = update_trade s k v' := by
  simp only [update_trade, List.map_map]
  congr 1
  funext p
  by_cases h : p.1 = k <;> simp [h]

lemma trail_step_sl (cfg : Config) (env : Env) (tr : Trade) (n : Nat) (cs : List ExCall) :
    ((trail_step cfg env tr n cs).1).sl_moved_to_be = tr.sl_moved_to_be := by
  unfold trail_step
  split <;> rfl

lemma trail_step_self (cfg : Config) (env : Env) (tr : Trade) (n : Nat) (cs : List ExCall) :
    trail_step cfg env ((trail_step cfg env tr n cs).1) n [] =
      ((trail_step cfg env tr n cs).1, []) := by
  by_cases h : cfg.trail_activate_on_tp ∧ n = cfg.trail_after_tp_index ∧
      tr.trailing_started = false
  · have hA : (trail_step cfg env tr n cs).1 = { tr with trailing_started := true } := by
      simp [trail_step, h]
    rw [hA]
    simp [trail_step]
  · have hA : (trail_step cfg env tr n cs).1 = tr := by
      simp [trail_step, h]
    rw [hA]
    simp [trail_step, h]

lemma tp_step_idem (cfg : Config) (env : Env) (tr : Trade) (n : Nat) (tr2 : Trade)
    (cs : List ExCall) (h : tp_step cfg env tr n = some (tr2, cs)) :
    tp_step cfg env tr2 n = some (tr2, []) := by
  unfold tp_step at h ⊢
  by_cases h1 : cfg.move_sl_to_be_on_tp1 ∧ n = 1 ∧ tr.sl_moved_to_be = false
  · rw [if_pos h1] at h
    cases hbe : pyOrQ tr.entry_price tr.trigger with
    | none =>
      rw [hbe] at h
      exact absurd h (by simp)
    | some be =>
      rw [hbe] at h
      simp only [Option.some_inj] at h
      have h2 : tr2 = (trail_step cfg env { tr with sl_moved_to_be := true } n
          (move_sl cfg env tr.symbol be)).1 := by
        rw [h]
      have hsl : tr2.sl_moved_to_be = true := by
        rw [h2, trail_step_sl]
      rw [if_neg (by simp [hsl])]
      rw [h2, trail_step_self]
  · rw [if_neg h1] at h
    simp only [Option.some_inj] at h
    have h2 : tr2 = (trail_step cfg env tr n []).1 := by
      rw [h]
    have hsl : tr2.sl_moved_to_be = tr.sl_moved_to_be := by
      rw [h2, trail_step_sl]
    rw [if_neg (by rw [hsl]; exact h1)]
    rw [h2, trail_step_self]

lemma split_first_structure {sep : Char} :
    ∀ {l a b : List Char}, split_first sep l = some (a, b) → l = a ++ sep :: b := by
  intro l
  induction l with
  | nil =>
    intro a b h
    exact absurd h (by simp [split_first])
  | cons c rest ih =>
    intro a b h
    simp only [split_first] at h
    by_cases hc : c = sep
    · rw [if_pos hc] at h
      simp only [Option.some_inj, Prod.mk.injEq] at h
      obtain ⟨ha, hb⟩ := h
      subst ha
      subst hb
      simp [hc]
    · rw [if_neg hc] at h
      cases hr : split_first sep rest with
      | none =>
        rw [hr] at h
        exact absurd h (by simp)
      | some pr =>
        rw [hr] at h
        obtain ⟨a', b'⟩ := pr
        simp only [Option.map_some', Option.some_inj, Prod.mk.injEq] at h
        obtain ⟨ha, hb⟩ := h
        subst hb
        have := ih hr
        subst this
        rw [← ha]
        simp

lemma mk_ne_of_split {L : String} {tidc tagc : List Char}
    (h : split_first ':' L.data = some (tidc, tagc)) : String.mk tidc ≠ L := by
  intro he
  have hd : tidc = L.data := congrArg String.data he
  have hstruct := split_first_structure h
  rw [← hd] at hstruct
  have := congrArg List.length hstruct
  simp at this

/-- C10: processing the same execution event twice is equivalent to
processing it once — the second run leaves the state unchanged and issues no
exchange calls, because the `pending` status guards re-entry and the
`sl_moved_to_be` / `trailing_started` flags guard the break-even move and the
trailing activation. -/
theorem C10_on_execution_idempotent (cfg : Config) (env : Env) (now now' : ℚ)
    (st : GlobalState) (ev : ExecEvent) :
    (on_execution cfg env now' (on_execution cfg env now st ev).state ev).state =
      (on_execution cfg env now st ev).state ∧
    (on_execution cfg env now' (on_execution cfg env now st ev).state ev).calls = [] := by
  simp only [on_execution]
  generalize (pyOrS ev.orderLinkId (pyOrS ev.orderLinkID (some ""))).getD "" = L
  by_cases hl : L = ""
  · simp [handle_link, hl]
  · cases h1 : lookup_trade st.open_trades L with
    | some tr =>
      by_cases hp : tr.status = Status.pending
      · have hr1 : handle_link cfg env now st ev L =
            ⟨⟨update_trade st.open_trades L (entry_fill_update now ev tr)⟩, [], false⟩ := by
          simp [handle_link, hl, h1, hp]
        rw [hr1]
        have h2 : lookup_trade (update_trade st.open_trades L (entry_fill_update now ev tr)) L
            = some (entry_fill_update now ev tr) := by
          rw [lookup_update_self, h1]
          rfl
        have hst : (entry_fill_update now ev tr).status = Status.opened := rfl
        simp [handle_link, hl, h2, hst]
      · have hr1 : handle_link cfg env now st ev L = ⟨st, [], false⟩ := by
          simp [handle_link, hl, h1, hp]
        rw [hr1]
        simp [handle_link, hl, h1, hp]
    | none =>
      by_cases hh : has_sub ":TP".data L.data
      case neg =>
        have hr1 : handle_link cfg env now st ev L = ⟨st, [], false⟩ := by
          simp [handle_link, hl, h1, hh]
        rw [hr1]
        simp [handle_link, hl, h1, hh]
      case pos =>
        cases hsp : split_first ':' L.data with
        | none =>
          have hr1 : handle_link cfg env now st ev L = ⟨st, [], false⟩ := by
            simp [handle_link, hl, h1, hh, hsp]
          rw [hr1]
          simp [handle_link, hl, h1, hh, hsp]
        | some pr =>
          obtain ⟨tidc, tagc⟩ := pr
          have hne : String.mk tidc ≠ L := mk_ne_of_split hsp
          cases h2 : lookup_trade st.open_trades (String.mk tidc) with
          | none =>
            have hr1 : handle_link cfg env now st ev L = ⟨st, [], false⟩ := by
              simp [handle_link, hl, h1, hh, hsp, h2]
            rw [hr1]
            simp [handle_link, hl, h1, hh, hsp, h2]
          | some tr =>
            cases hfn : find_tp_num tagc with
            | none =>
              have hr1 : handle_link cfg env now st ev L = ⟨st, [], false⟩ := by
                simp [handle_link, hl, h1, hh, hsp, h2, hfn]
              rw [hr1]
              simp [handle_link, hl, h1, hh, hsp, h2, hfn]
            | some n =>
              by_cases hn : n = 0
              · have hr1 : handle_link cfg env now st ev L = ⟨st, [], false⟩ := by
                  simp [handle_link, hl, h1, hh, hsp, h2, hfn, hn]
                rw [hr1]
                simp [handle_link, hl, h1, hh, hsp, h2, hfn, hn]
              · cases htp : tp_step cfg env tr n with
                | none =>
                  have hr1 : handle_link cfg env now st ev L = ⟨st, [], true⟩ := by
                    simp [handle_link, hl, h1, hh, hsp, h2, hfn, hn, htp]
                  rw [hr1]
                  simp [handle_link, hl, h1, hh, hsp, h2, hfn, hn, htp]
                | some pr2 =>
                  obtain ⟨tr2, cs⟩ := pr2
                  have hr1 : handle_link cfg env now st ev L =
                      ⟨⟨update_trade st.open_trades (String.mk tidc) tr2⟩, cs, false⟩ := by
                    simp [handle_link, hl, h1, hh, hsp, h2, hfn, hn, htp]
                  rw [hr1]
                  have h1' : lookup_trade
                      (update_trade st.open_trades (String.mk tidc) tr2) L = none := by
                    rw [lookup_update_ne st.open_trades (String.mk tidc) L tr2 (Ne.symm hne)]
                    exact h1
                  have h2' : lookup_trade
                      (update_trade st.open_trades (String.mk tidc) tr2) (String.mk tidc) =
                      some tr2 := by
                    rw [lookup_update_self, h2]
                    rfl
                  have htp2 : tp_step cfg env tr2 n = some (tr2, []) :=
                    tp_step_idem cfg env tr n tr2 cs htp
                  have hupd : update_trade
                      (update_trade st.open_trades (String.mk tidc) tr2) (String.mk tidc) tr2 =
                      update_trade st.open_trades (String.mk tidc) tr2 :=
                    update_update _ _ _ _
                  simp [handle_link, hl, h1', hh, hsp, h2', hfn, hn, htp2, hupd]

/-- C10 witness: the idempotence law at a concrete pending trade receiving
its entry-fill event. -/
theorem C10_on_execution_idempotent_witness :
    (on_execution cfg0 envC1 1
        (on_execution cfg0 envC1 0 ⟨[("t1", tr0)]⟩ ⟨some "t1", none, some 3000, none, none⟩).state
        ⟨some "t1", none, some 3000, none, none⟩).state =
      (on_execution cfg0 envC1 0 ⟨[("t1", tr0)]⟩ ⟨some "t1", none, some 3000, none, none⟩).state ∧
    (on_execution cfg0 envC1 1
        (on_execution cfg0 envC1 0 ⟨[("t1", tr0)]⟩ ⟨some "t1", none, some 3000, none, none⟩).state
        ⟨some "t1", none, some 3000, none, none⟩).calls = [] :=
  C10_on_execution_idempotent cfg0 envC1 0 1 ⟨[("t1", tr0)]⟩
    ⟨some "t1", none, some 3000, none, none⟩
